import Mathlib

/-!
Verification development for the storage module save_utils.py of the
iqcc-calibration repository.  The Python source is shallowly embedded:
pure string/array manipulations become Lean functions, the filesystem and
the external readers (dataset files, JSON metadata, calibration state)
become an explicit environment record, and Python exceptions become an
explicit error type carried in Except.  Numeric payloads (measurement
samples, coordinate values, parameter values) are opaque to every claim
below, so they are modelled by Int.
-/

deriving instance DecidableEq for Except

namespace SaveUtils

/-- Index of the first digit character of a character list.  Mirrors the
source expression in extract_string that scans enumerate(input_string) for
the first c with c.isdigit(); the digit test is modelled on the ASCII
decimal range. -/
def firstDigitIdx : List Char → Option Nat
  | [] => Option.none
  | c :: cs => if c.isDigit then some 0 else (firstDigitIdx cs).map (· + 1)

/-- Embedding of extract_string from save_utils.py: slice the input up to
the index of its first digit, or return None when no digit occurs. -/
def extract_string (input_string : String) : Option String :=
  match firstDigitIdx input_string.toList with
  | some index => some (String.mk (input_string.toList.take index))
  | Option.none => Option.none

lemma firstDigitIdx_eq_none {cs : List Char} :
    firstDigitIdx cs = Option.none ↔ ∀ c ∈ cs, c.isDigit = false := by
  induction cs with
  | nil => simp [firstDigitIdx]
  | cons c cs ih =>
    by_cases h : c.isDigit <;>
      simp [firstDigitIdx, h, ih, Option.map_eq_none']

lemma firstDigitIdx_take {cs : List Char} {i : Nat}
    (h : firstDigitIdx cs = some i) :
    cs.take i = cs.takeWhile (fun c => !c.isDigit) := by
  induction cs generalizing i with
  | nil => simp [firstDigitIdx] at h
  | cons c cs ih =>
    by_cases hc : c.isDigit
    · have heq : firstDigitIdx (c :: cs) = some 0 := by
        simp [firstDigitIdx, hc]
      rw [heq] at h
      cases h
      simp [List.takeWhile_cons, hc]
    · cases hj : firstDigitIdx cs with
      | none =>
        have heq : firstDigitIdx (c :: cs) = Option.none := by
          simp [firstDigitIdx, hc, hj]
        rw [heq] at h
        exact Option.noConfusion h
      | some j =>
        have heq : firstDigitIdx (c :: cs) = some (j + 1) := by
          simp [firstDigitIdx, hc, hj]
        rw [heq] at h
        cases h
        simp [List.takeWhile_cons, hc, List.take_succ_cons, ih hj]

lemma extract_string_eq (s : String) :
    extract_string s
      = (firstDigitIdx s.toList).map (fun i => String.mk (s.toList.take i)) := by
  unfold extract_string
  cases firstDigitIdx s.toList <;> rfl

/-- C2 (counterexample): on the input "1abc", which begins with a digit,
extract_string returns the empty string, not the None-equivalent claimed
by the specification. -/
theorem extract_string_leading_digit_counterexample :
    extract_string "1abc" = some "" ∧ extract_string "1abc" ≠ Option.none := by
  refine ⟨by decide, by decide⟩

/-- C2 (amended): extract_string returns None exactly when the input has
no digit; whenever a digit occurs it returns the maximal (possibly empty)
leading substring of characters preceding the first digit — in particular
the empty string, not None, when the input begins with a digit. -/
theorem extract_string_spec (s : String) :
    (extract_string s = Option.none ↔ ∀ c ∈ s.toList, c.isDigit = false) ∧
    ((∃ c ∈ s.toList, c.isDigit = true) →
      extract_string s = some (String.mk (s.toList.takeWhile (fun c => !c.isDigit)))) := by
  constructor
  · rw [extract_string_eq]
    cases h : firstDigitIdx s.toList with
    | none => simpa using firstDigitIdx_eq_none.mp h
    | some i =>
      simp only [Option.map_some']
      constructor
      · intro hcontra; exact Option.noConfusion hcontra
      · intro hall
        have hnone := firstDigitIdx_eq_none.mpr hall
        rw [h] at hnone
        exact Option.noConfusion hnone
  · intro hdig
    rw [extract_string_eq]
    cases h : firstDigitIdx s.toList with
    | none =>
      obtain ⟨c, hc, hcd⟩ := hdig
      have := firstDigitIdx_eq_none.mp h c hc
      rw [hcd] at this
      exact Bool.noConfusion this
    | some i =>
      simp only [Option.map_some', Option.some.injEq]
      exact congrArg String.mk (firstDigitIdx_take h)

/-- Witness for the amended C2 theorem at the concrete input "ab1c". -/
theorem extract_string_spec_witness :
    extract_string "ab1c" = some "ab" := by
  have h := (extract_string_spec "ab1c").2 ⟨'1', by decide, by decide⟩
  rw [h]; decide

/-- Python value appearing as the serial_number / number argument.  The
constructors cover the Python types the claims exercise. -/
inductive SerialArg where
  | int (n : Int)
  | bool (b : Bool)
  | str (s : String)
  | pynone
deriving DecidableEq

/-- Python isinstance(x, int): true for int values and also for bool
values, since bool is a subclass of int in Python. -/
def isinstance_int : SerialArg → Bool
  | .int _ => true
  | .bool _ => true
  | _ => false

/-- Python str() formatting as used by f-strings: integers in decimal,
booleans as True / False, None as None. -/
def pyStr : SerialArg → String
  | .int n => toString n
  | .bool b => if b then "True" else "False"
  | .str s => s
  | .pynone => "None"

mutual
/-- A directory of the storage tree: named subdirectories in listing
order, plus plain file names. -/
inductive DirTree where
  | node (dirs : DirForest) (files : List String)
/-- An ordered listing of named subdirectories. -/
inductive DirForest where
  | nil
  | cons (name : String) (tree : DirTree) (rest : DirForest)
end

/-- Names of the immediate child directories of a listing. -/
def forestNames : DirForest → List String
  | .nil => []
  | .cons n _ rest => n :: forestNames rest

mutual
/-- All directory names occurring anywhere strictly below a directory. -/
def subdirNames : DirTree → List String
  | .node ds _ => forestAllNames ds
/-- All directory names of a listing and of everything below it. -/
def forestAllNames : DirForest → List String
  | .nil => []
  | .cons n t rest => n :: (subdirNames t ++ forestAllNames rest)
end

/-- One entry of the os.walk traversal: the path of the visited directory,
its child directory names, and its file names. -/
structure WalkEntry where
  root : String
  dirs : List String
  files : List String
deriving DecidableEq

/-- Python str.startswith, modelled over the character lists of the two
strings. -/
def strStartsWith (s tag : String) : Bool :=
  tag.toList.isPrefixOf s.toList

/-- Python len() of a string: its number of characters. -/
def pyLen (s : String) : Nat :=
  s.toList.length

mutual
/-- Embedding of os.walk(base_path): top-down traversal that yields, for
each visited directory, its path, child directory names and file names,
followed by the traversal of each child in listing order. -/
def walk (path : String) : DirTree → List WalkEntry
  | .node ds fs => ⟨path, forestNames ds, fs⟩ :: walkForest path ds
/-- Traversals of each child of a listing, concatenated in order. -/
def walkForest (path : String) : DirForest → List WalkEntry
  | .nil => []
  | .cons n t rest => walk (path ++ "/" ++ n) t ++ walkForest path rest
end

/-- The directory-name filter of find_numbered_folder: names that start
with the tag and are strictly longer than it. -/
def matchingDirs (tag : String) (names : List String) : List String :=
  names.filter (fun d => strStartsWith d tag && decide (pyLen tag < pyLen d))

/-- The search tag built by find_numbered_folder from its number argument,
via the f-string with a leading hash and a trailing underscore. -/
def searchTag (number : SerialArg) : String :=
  "#" ++ pyStr number ++ "_"

/-- The os.walk loop of find_numbered_folder: the first walk entry with a
matching child directory wins, and its first matching child name is
joined onto the entry path. -/
def firstMatch (tag : String) : List WalkEntry → Option String
  | [] => Option.none
  | e :: rest =>
    match matchingDirs tag e.dirs with
    | [] => firstMatch tag rest
    | d :: _ => some (e.root ++ "/" ++ d)

/-- Embedding of find_numbered_folder(base_path, number) from
save_utils.py. -/
def find_numbered_folder (base_path : String) (t : DirTree) (number : SerialArg) : Option String :=
  firstMatch (searchTag number) (walk base_path t)

/-- All matching directories in walk-encounter order, each joined onto the
path of the walk entry where it is listed. -/
def encounteredMatches (tag : String) (entries : List WalkEntry) : List String :=
  entries.flatMap (fun e => (matchingDirs tag e.dirs).map (fun d => e.root ++ "/" ++ d))

lemma firstMatch_eq_head (tag : String) (entries : List WalkEntry) :
    firstMatch tag entries = (encounteredMatches tag entries).head? := by
  induction entries with
  | nil => rfl
  | cons e rest ih =>
    cases h : matchingDirs tag e.dirs with
    | nil => simp [firstMatch, encounteredMatches, h, ih, encounteredMatches]
    | cons d ds => simp [firstMatch, encounteredMatches, h]

lemma encounteredMatches_eq_nil (tag : String) (entries : List WalkEntry) :
    encounteredMatches tag entries = [] ↔
      ∀ e ∈ entries, matchingDirs tag e.dirs = [] := by
  induction entries with
  | nil => simp [encounteredMatches]
  | cons e rest ih =>
    simp [encounteredMatches, List.map_eq_nil_iff] at ih ⊢

lemma matchingDirs_eq_nil (tag : String) (names : List String) :
    matchingDirs tag names = [] ↔
      ∀ d ∈ names, ¬(strStartsWith d tag = true ∧ pyLen tag < pyLen d) := by
  simp [matchingDirs, List.filter_eq_nil_iff]

/-- All directory names strictly below the trees of a listing, excluding
the listed names themselves. -/
def forestDeepNames : DirForest → List String
  | .nil => []
  | .cons _ t rest => subdirNames t ++ forestDeepNames rest

lemma forestAllNames_mem : ∀ (ds : DirForest) (d : String),
    d ∈ forestAllNames ds ↔ d ∈ forestNames ds ∨ d ∈ forestDeepNames ds
  | .nil, d => by simp [forestAllNames, forestNames, forestDeepNames]
  | .cons n t rest, d => by
    have ih := forestAllNames_mem rest d
    simp only [forestAllNames, forestNames, forestDeepNames, List.mem_cons,
      List.mem_append, ih]
    tauto

mutual
lemma walk_dirs_mem : ∀ (path : String) (t : DirTree) (d : String),
    (∃ e ∈ walk path t, d ∈ e.dirs) ↔ d ∈ subdirNames t
  | path, .node ds fs, d => by
    have hf := walkForest_dirs_mem path ds d
    simp only [walk, subdirNames]
    constructor
    · rintro ⟨e, he, hd⟩
      rcases List.mem_cons.mp he with rfl | h
      · exact (forestAllNames_mem ds d).mpr (Or.inl hd)
      · exact (forestAllNames_mem ds d).mpr (Or.inr (hf.mp ⟨e, h, hd⟩))
    · intro hm
      rcases (forestAllNames_mem ds d).mp hm with h | h
      · exact ⟨⟨path, forestNames ds, fs⟩, List.mem_cons_self _ _, h⟩
      · obtain ⟨e, he, hd⟩ := hf.mpr h
        exact ⟨e, List.mem_cons_of_mem _ he, hd⟩
lemma walkForest_dirs_mem : ∀ (path : String) (ds : DirForest) (d : String),
    (∃ e ∈ walkForest path ds, d ∈ e.dirs) ↔ d ∈ forestDeepNames ds
  | path, .nil, d => by simp [walkForest, forestDeepNames]
  | path, .cons n t rest, d => by
    have h1 := walk_dirs_mem (path ++ "/" ++ n) t d
    have h2 := walkForest_dirs_mem path rest d
    simp only [walkForest, forestDeepNames]
    constructor
    · rintro ⟨e, he, hd⟩
      rcases List.mem_append.mp he with h | h
      · exact List.mem_append.mpr (Or.inl (h1.mp ⟨e, h, hd⟩))
      · exact List.mem_append.mpr (Or.inr (h2.mp ⟨e, h, hd⟩))
    · intro hm
      rcases List.mem_append.mp hm with h | h
      · obtain ⟨e, he, hd⟩ := h1.mpr h
        exact ⟨e, List.mem_append.mpr (Or.inl he), hd⟩
      · obtain ⟨e, he, hd⟩ := h2.mpr h
        exact ⟨e, List.mem_append.mpr (Or.inr he), hd⟩
end

/-- Concrete storage tree with sibling folders tagged 7 and 70. -/
def c6tree : DirTree :=
  .node (.cons "#7_foo" (.node .nil []) (.cons "#70_bar" (.node .nil []) .nil)) []

/-- C6: the Folder Locator returns the first matching directory in
walk-encounter order; it returns None exactly when no directory anywhere
below the root starts with the search tag and is strictly longer than it;
and in a root holding folders for both tag 7 and tag 70, searching for 7
returns only the tag-7 folder. -/
theorem find_numbered_folder_spec :
    (∀ base t number,
      find_numbered_folder base t number
        = (encounteredMatches (searchTag number) (walk base t)).head?) ∧
    (∀ base t number,
      find_numbered_folder base t number = Option.none ↔
        ∀ d ∈ subdirNames t,
          ¬(strStartsWith d (searchTag number) = true ∧
            pyLen (searchTag number) < pyLen d)) ∧
    find_numbered_folder "root" c6tree (.int 7) = some "root/#7_foo" := by
  refine ⟨?_, ?_, ?_⟩
  · intro base t number
    exact firstMatch_eq_head _ _
  · intro base t number
    rw [find_numbered_folder, firstMatch_eq_head, List.head?_eq_none_iff,
      encounteredMatches_eq_nil]
    constructor
    · intro h d hd
      obtain ⟨e, he, hde⟩ := (walk_dirs_mem base t d).mpr hd
      exact (matchingDirs_eq_nil _ _).mp (h e he) d hde
    · intro h e he
      rw [matchingDirs_eq_nil]
      intro d hd
      exact h d ((walk_dirs_mem base t d).mp ⟨e, he, hd⟩)
  · decide

/-- Witness instantiating the C6 theorem on the concrete two-folder tree:
searching for 70 finds the tag-70 folder, via the walk-order
characterization. -/
theorem find_numbered_folder_spec_witness :
    find_numbered_folder "root" c6tree (.int 70) = some "root/#70_bar" := by
  rw [find_numbered_folder_spec.1 "root" c6tree (.int 70)]
  decide

/-- A dense n-dimensional array: a shape and a row-major flattened data
list.  Measurement samples are opaque to every claim, so elements are
Int. -/
structure NDArray where
  shape : List Nat
  data : List Int
deriving DecidableEq

/-- Product of the sizes of a shape. -/
def listProd : List Nat → Nat
  | [] => 1
  | d :: ds => d * listProd ds

/-- np.squeeze: remove every axis of size one; the row-major data is
unchanged. -/
def np_squeeze (a : NDArray) : NDArray :=
  ⟨a.shape.filter (fun d => d != 1), a.data⟩

/-- Multi-index of a flat position in a shape (row-major). -/
def unflattenIdx : List Nat → Nat → List Nat
  | [], _ => []
  | _ :: ds, k => (k / listProd ds) :: unflattenIdx ds (k % listProd ds)

/-- Flat position of a multi-index in a shape (row-major). -/
def flattenIdx : List Nat → List Nat → Nat
  | [], _ => 0
  | _ :: _, [] => 0
  | _ :: ds, i :: is => i * listProd ds + flattenIdx ds is

/-- Python sorted() on a list of sizes. -/
def pySorted (l : List Nat) : List Nat :=
  l.insertionSort (· ≤ ·)

/-- np.transpose with an explicit axis list: axis j of the result is axis
perm[j] of the source.  As in numpy, an axis list of the wrong length, an
out-of-range axis, or a repeated axis raises. -/
def np_transpose (a : NDArray) (perm : List Nat) : Except String NDArray :=
  if perm.length ≠ a.shape.length then
    .error "axes dont match array"
  else if perm.any (fun i => a.shape.length ≤ i) then
    .error "axis out of bounds"
  else if ¬ perm.Nodup then
    .error "repeated axis in transpose"
  else
    let newShape := perm.map (fun i => a.shape.getD i 0)
    .ok ⟨newShape,
      (List.range (listProd newShape)).map (fun k =>
        let idx := unflattenIdx newShape k
        let src := (List.range a.shape.length).map
          (fun i => idx.getD (perm.indexOf i) 0)
        a.data.getD (flattenIdx a.shape src) 0)⟩

/-- A value of the measurement-axis mapping: a scalar (np.isscalar true),
a coordinate sequence, or the qubit-name list the assemblers insert. -/
inductive AxisVal where
  | scalar (n : Nat)
  | seq (vals : List Int)
  | names (vals : List String)
deriving DecidableEq

/-- Expected-shape contribution of an axis value: a scalar contributes
the scalar value itself, a sequence its length. -/
def axisDim : AxisVal → Nat
  | .scalar n => n
  | .seq vals => vals.length
  | .names vals => vals.length

/-- An ordered axis-name-to-value mapping (a Python dict in the source). -/
abbrev AxisSpec := List (String × AxisVal)

/-- The expected shape computed by fetch_single_shot_results_as_xarray
from the axis specification in original order. -/
def expected_shape (measurement_axis : AxisSpec) : List Nat :=
  measurement_axis.map (fun p => axisDim p.2)

/-- Python repr of a shape tuple as interpolated into the error message:
"(3, 2)", with one-element form "(3,)" and empty form "()". -/
def pyTupleStr (l : List Nat) : String :=
  match l with
  | [] => "()"
  | [d] => "(" ++ toString d ++ ",)"
  | _ => "(" ++ String.intercalate ", " (l.map toString) ++ ")"

/-- Python repr of a list of sizes: "[4, 5]". -/
def pyListStr (l : List Nat) : String :=
  "[" ++ String.intercalate ", " (l.map toString) ++ "]"

/-- The f-string of the shape-mismatch ValueError raised by
fetch_single_shot_results_as_xarray, naming the variable, the 1-based
qubit index and both shapes. -/
def shapeMismatchMsg (meas_var : String) (oneBasedIdx : Nat)
    (got expected : List Nat) : String :=
  "Shape mismatch for " ++ meas_var ++ toString oneBasedIdx ++ ": got " ++
    pyTupleStr got ++ ", expected " ++ pyListStr expected

/-- The per-(variable, qubit) body of the fetch loop of
fetch_single_shot_results_as_xarray: squeeze the raw fetch, keep it when
its shape equals the expected shape, transpose by first-matching-position
when only the order differs, raise the descriptive ValueError when the
size multisets differ. -/
def processShot (meas_var : String) (i : Nat) (measurement_axis : AxisSpec)
    (raw : NDArray) : Except String NDArray :=
  let arr := np_squeeze raw
  let expected := expected_shape measurement_axis
  if arr.shape = expected then
    .ok arr
  else if pySorted arr.shape = pySorted expected then
    np_transpose arr (expected.map (fun s => arr.shape.indexOf s))
  else
    .error (shapeMismatchMsg meas_var (i + 1) arr.shape expected)

/-- Opaque qubit entity: only its name attribute is used. -/
structure Qubit where
  name : String
deriving DecidableEq

/-- np.array on a list of equal-shaped arrays: stack along a new leading
axis. -/
def np_stack (l : List NDArray) : NDArray :=
  ⟨l.length :: (l.headD ⟨[], []⟩).shape, l.flatMap (fun a => a.data)⟩

/-- Labeled dataset: data variables (name, dimension labels, array) plus
coordinate metadata. -/
structure XDataset where
  dataVars : List (String × (List String × NDArray))
  coords : AxisSpec
deriving DecidableEq

/-- Embedding of fetch_single_shot_results_as_xarray from save_utils.py.
A missing handle key models the AttributeError of calling fetch_all on
the None that handles.get returns. -/
def fetch_single_shot_results_as_xarray (handles : List (String × NDArray))
    (qubits : List Qubit) (measurement_axis : AxisSpec) :
    Except String XDataset := do
  let stream_handles := handles.map Prod.fst
  let meas_vars := (stream_handles.filterMap extract_string).eraseDups
  let values ← meas_vars.mapM (fun meas_var => do
    let qubit_data ← (List.range qubits.length).mapM (fun i =>
      match handles.lookup (meas_var ++ toString (i + 1)) with
      | some raw => processShot meas_var i measurement_axis raw
      | Option.none =>
        Except.error "AttributeError: NoneType object has no attribute fetch_all")
    pure (np_stack qubit_data))
  let coords := ("qubit", AxisVal.names (qubits.map Qubit.name)) :: measurement_axis
  let ordered_axes := "qubit" :: measurement_axis.map Prod.fst
  pure ⟨(meas_vars.zip values).map (fun p => (p.1, (ordered_axes, p.2))), coords⟩

/-- Python dict insertion d[k] = v: update in place when the key exists,
else append at the end. -/
def dictInsert (d : AxisSpec) (k : String) (v : AxisVal) : AxisSpec :=
  if d.any (fun p => p.1 == k) then
    d.map (fun p => if p.1 == k then (k, v) else p)
  else d ++ [(k, v)]

/-- The slice values[i] of a stacked array along its leading axis. -/
def sliceFirst (a : NDArray) (i : Nat) : NDArray :=
  let sz := listProd a.shape.tail
  ⟨a.shape.tail, (a.data.drop (i * sz)).take sz⟩

/-- np.array on the nested per-variable, per-qubit fetch results of the
standard assembler. -/
def np_array2 (vss : List (List NDArray)) : NDArray :=
  ⟨vss.length :: (vss.headD []).length :: ((vss.headD []).headD ⟨[], []⟩).shape,
    vss.flatMap (fun vs => vs.flatMap (fun a => a.data))⟩

/-- Embedding of fetch_results_as_xarray from save_utils.py: fetch per
variable and qubit, squeeze a trailing singleton axis of the combined
array, insert the qubit axis into the axis specification, reverse it, and
label each per-variable slice with the reversed axis names. -/
def fetch_results_as_xarray (handles : List (String × NDArray))
    (qubits : List Qubit) (measurement_axis : AxisSpec) :
    Except String XDataset := do
  let stream_handles := handles.map Prod.fst
  let meas_vars := (stream_handles.filterMap extract_string).eraseDups
  let values ← meas_vars.mapM (fun meas_var =>
    (List.range qubits.length).mapM (fun i =>
      match handles.lookup (meas_var ++ toString (i + 1)) with
      | some raw => Except.ok raw
      | Option.none =>
        Except.error "AttributeError: NoneType object has no attribute fetch_all"))
  let stacked := np_array2 values
  let squeezed :=
    if stacked.shape.getLast? = some 1 then
      NDArray.mk stacked.shape.dropLast stacked.data
    else stacked
  let axisWithQubit :=
    dictInsert measurement_axis "qubit" (AxisVal.names (qubits.map Qubit.name))
  let reversedAxis := axisWithQubit.reverse
  pure ⟨meas_vars.enum.map (fun p =>
      (p.2, (reversedAxis.map Prod.fst, sliceFirst squeezed p.1))),
    reversedAxis⟩

lemma pySorted_eq_perm {l1 l2 : List Nat} (h : pySorted l1 = pySorted l2) :
    l1.Perm l2 := by
  have h1 := (List.perm_insertionSort (· ≤ ·) l1).symm
  have h2 := List.perm_insertionSort (· ≤ ·) l2
  rw [pySorted, pySorted] at h
  exact (h ▸ h1).trans h2

lemma indexOf_map_nodup {s e : List Nat} (hmem : ∀ v ∈ e, v ∈ s)
    (hnd : e.Nodup) : (e.map (fun v => s.indexOf v)).Nodup := by
  refine List.Nodup.map_on ?_ hnd
  intro x hx y hy hxy
  have hxs := List.indexOf_lt_length.mpr (hmem x hx)
  have hys := List.indexOf_lt_length.mpr (hmem y hy)
  have gx := List.indexOf_get (a := x) (l := s) hxs
  have gy := List.indexOf_get (a := y) (l := s) hys
  rw [← gx, ← gy]
  congr 1
  exact Fin.ext hxy

lemma np_transpose_ok_shape (a : NDArray) (perm : List Nat)
    (h1 : perm.length = a.shape.length)
    (h2 : ∀ j ∈ perm, j < a.shape.length)
    (h3 : perm.Nodup) :
    ∃ arr2, np_transpose a perm = .ok arr2 ∧
      arr2.shape = perm.map (fun i => a.shape.getD i 0) := by
  rw [np_transpose, if_neg (by simp [h1]), if_neg ?_, if_neg (not_not_intro h3)]
  · exact ⟨_, rfl, rfl⟩
  · simp only [List.any_eq_true, not_exists, not_and, decide_eq_true_eq, not_le]
    intro j hj
    simpa using h2 j hj

lemma np_transpose_repeated_axis (a : NDArray) (perm : List Nat)
    (h1 : perm.length = a.shape.length)
    (h2 : ∀ j ∈ perm, j < a.shape.length)
    (h3 : ¬ perm.Nodup) :
    np_transpose a perm = .error "repeated axis in transpose" := by
  rw [np_transpose, if_neg (by simp [h1]), if_neg ?_, if_pos h3]
  simp only [List.any_eq_true, not_exists, not_and, decide_eq_true_eq, not_le]
  intro j hj
  simpa using h2 j hj

lemma indexOf_map_length {s e : List Nat} (hperm : s.Perm e) :
    (e.map (fun v => s.indexOf v)).length = s.length := by
  rw [List.length_map, hperm.length_eq]

lemma indexOf_map_bound {s e : List Nat} (hmem : ∀ v ∈ e, v ∈ s) :
    ∀ j ∈ e.map (fun v => s.indexOf v), j < s.length := by
  intro j hj
  obtain ⟨v, hv, rfl⟩ := List.mem_map.mp hj
  exact List.indexOf_lt_length.mpr (hmem v hv)

lemma np_transpose_perm_ok (a : NDArray) (e : List Nat)
    (hperm : a.shape.Perm e) (hnd : e.Nodup) :
    ∃ arr2, np_transpose a (e.map (fun v => a.shape.indexOf v)) = .ok arr2 ∧
      arr2.shape = e := by
  have hmem : ∀ v ∈ e, v ∈ a.shape := fun v hv => hperm.mem_iff.mpr hv
  obtain ⟨arr2, hok, hsh⟩ := np_transpose_ok_shape a
    (e.map (fun v => a.shape.indexOf v))
    (indexOf_map_length hperm) (indexOf_map_bound hmem)
    (indexOf_map_nodup hmem hnd)
  refine ⟨arr2, hok, ?_⟩
  rw [hsh, List.map_map]
  have hpt : ∀ v ∈ e, a.shape.getD (a.shape.indexOf v) 0 = v := by
    intro v hv
    have hlt := List.indexOf_lt_length.mpr (hmem v hv)
    rw [List.getD_eq_getElem a.shape 0 hlt]
    exact List.getElem_indexOf hlt
  calc e.map ((fun i => a.shape.getD i 0) ∘ fun v => a.shape.indexOf v)
      = e.map id := List.map_congr_left (fun v hv => hpt v hv)
    _ = e := List.map_id e

lemma np_transpose_perm_repeated (a : NDArray) (e : List Nat)
    (hperm : a.shape.Perm e) (hnd : ¬ e.Nodup) :
    np_transpose a (e.map (fun v => a.shape.indexOf v))
      = .error "repeated axis in transpose" := by
  have hmem : ∀ v ∈ e, v ∈ a.shape := fun v hv => hperm.mem_iff.mpr hv
  refine np_transpose_repeated_axis a _ (indexOf_map_length hperm)
    (indexOf_map_bound hmem) ?_
  intro hc
  exact hnd (List.Nodup.of_map _ hc)

/-- Axis specification with expected shape [2, 3, 2]: a repeated size. -/
def c4axes : AxisSpec :=
  [("a", .seq [0, 1]), ("b", .seq [0, 1, 2]), ("c", .seq [3, 4])]

/-- A raw fetch of shape (3, 2, 2). -/
def c4raw : NDArray :=
  ⟨[3, 2, 2], List.replicate 12 0⟩

/-- C4 (counterexample): with squeezed shape (3, 2, 2) and expected shape
[2, 3, 2] the shapes differ while the size multisets agree, yet the fetch
is not transposed into the expected order: the first-matching-position
choice picks axis 1 twice and the transpose raises the numpy
repeated-axis error, which names neither the variable nor the qubit
index. -/
theorem processShot_repeated_size_counterexample :
    (np_squeeze c4raw).shape ≠ expected_shape c4axes ∧
    pySorted (np_squeeze c4raw).shape = pySorted (expected_shape c4axes) ∧
    (expected_shape c4axes).map (fun s => (np_squeeze c4raw).shape.indexOf s)
      = [1, 0, 1] ∧
    processShot "I" 0 c4axes c4raw = .error "repeated axis in transpose" := by
  refine ⟨by decide, by decide, by decide, by decide⟩

/-- C4 (amended): for each (variable, qubit) fetch of the validated
assembler: an exact match of squeezed and expected shape is used as-is; a
size-multiset mismatch raises the descriptive error naming the variable,
the 1-based qubit index and both shapes; when only the order differs, the
first-matching-position transpose produces the expected shape provided
the expected sizes are pairwise distinct, while a repeated expected size
makes the chosen axis positions repeat, so the transpose raises the numpy
repeated-axis error instead of producing the expected order. -/
theorem processShot_spec (meas_var : String) (i : Nat)
    (measurement_axis : AxisSpec) (raw : NDArray) :
    ((np_squeeze raw).shape = expected_shape measurement_axis →
      processShot meas_var i measurement_axis raw = .ok (np_squeeze raw)) ∧
    ((np_squeeze raw).shape ≠ expected_shape measurement_axis →
      pySorted (np_squeeze raw).shape
          ≠ pySorted (expected_shape measurement_axis) →
      processShot meas_var i measurement_axis raw
        = .error (shapeMismatchMsg meas_var (i + 1) (np_squeeze raw).shape
            (expected_shape measurement_axis))) ∧
    ((np_squeeze raw).shape ≠ expected_shape measurement_axis →
      pySorted (np_squeeze raw).shape
          = pySorted (expected_shape measurement_axis) →
      (expected_shape measurement_axis).Nodup →
      ∃ arr2, processShot meas_var i measurement_axis raw = .ok arr2 ∧
        arr2.shape = expected_shape measurement_axis) ∧
    ((np_squeeze raw).shape ≠ expected_shape measurement_axis →
      pySorted (np_squeeze raw).shape
          = pySorted (expected_shape measurement_axis) →
      ¬ (expected_shape measurement_axis).Nodup →
      processShot meas_var i measurement_axis raw
        = .error "repeated axis in transpose") := by
  refine ⟨?_, ?_, ?_, ?_⟩
  · intro h
    simp only [processShot]
    rw [if_pos h]
  · intro h1 h2
    simp only [processShot]
    rw [if_neg h1, if_neg h2]
  · intro h1 h2 h3
    simp only [processShot]
    rw [if_neg h1, if_pos h2]
    exact np_transpose_perm_ok _ _ (pySorted_eq_perm h2) h3
  · intro h1 h2 h3
    simp only [processShot]
    rw [if_neg h1, if_pos h2]
    exact np_transpose_perm_repeated _ _ (pySorted_eq_perm h2) h3

/-- Axis specification with expected shape [2, 3]. -/
def c4axesB : AxisSpec :=
  [("x", .seq [10, 11]), ("y", .seq [20, 21, 22])]

/-- Axis specification with expected shape [4, 5]. -/
def c4axesC : AxisSpec :=
  [("x", .seq [0, 1, 2, 3]), ("y", .seq [0, 1, 2, 3, 4])]

/-- A raw fetch of shape (3, 2). -/
def c4rawB : NDArray :=
  ⟨[3, 2], [1, 2, 3, 4, 5, 6]⟩

/-- Witness for the C4 theorem at the two concrete inputs of the
specification: a (3, 2) fetch against expected [2, 3] is permuted and
succeeds, and a (3, 2) fetch against expected [4, 5] raises the
descriptive error naming the variable and the 1-based qubit index. -/
theorem processShot_spec_witness :
    (∃ arr2, processShot "I" 0 c4axesB c4rawB = .ok arr2 ∧
      arr2.shape = expected_shape c4axesB) ∧
    processShot "Q" 1 c4axesC c4rawB
      = .error "Shape mismatch for Q2: got (3, 2), expected [4, 5]" := by
  constructor
  · exact (processShot_spec "I" 0 c4axesB c4rawB).2.2.1
      (by decide) (by decide) (by decide)
  · have h := (processShot_spec "Q" 1 c4axesC c4rawB).2.1 (by decide) (by decide)
    rw [h]
    decide

/-- Handles of the C5 scenario: variables I and Q over two qubits, each
fetch of shape (3,). -/
def c5handles : List (String × NDArray) :=
  [("I1", ⟨[3], [1, 2, 3]⟩), ("I2", ⟨[3], [4, 5, 6]⟩),
   ("Q1", ⟨[3], [7, 8, 9]⟩), ("Q2", ⟨[3], [10, 11, 12]⟩)]

/-- The two qubits of the C5 scenario. -/
def c5qubits : List Qubit := [⟨"q0"⟩, ⟨"q1"⟩]

/-- The single frequency axis of the C5 scenario. -/
def c5axis : AxisSpec := [("freq", .seq [100, 200, 300])]

/-- The dataset produced in the C5 scenario. -/
def c5result : XDataset :=
  ⟨[("I", (["qubit", "freq"], ⟨[2, 3], [1, 2, 3, 4, 5, 6]⟩)),
    ("Q", (["qubit", "freq"], ⟨[2, 3], [7, 8, 9, 10, 11, 12]⟩))],
   [("qubit", .names ["q0", "q1"]), ("freq", .seq [100, 200, 300])]⟩

/-- C5: the standard assembler, on two qubits with handles I1, I2, Q1, Q2
each of shape (3,) over a single frequency axis, produces data variables
I and Q, each with dimension labels qubit then freq and shape (2, 3):
the qubit axis is inserted and the axis order reversed, and that reversed
order is the output dimension order. -/
theorem fetch_results_as_xarray_c5 :
    fetch_results_as_xarray c5handles c5qubits c5axis = .ok c5result ∧
    c5result.dataVars.map Prod.fst = ["I", "Q"] ∧
    ∀ p ∈ c5result.dataVars,
      p.2.1 = ["qubit", "freq"] ∧ p.2.2.shape = [2, 3] := by
  refine ⟨by decide, by decide, by decide⟩

/-- Python exception kinds distinguished by the loader claims. -/
inductive PyErr where
  | valueError (msg : String)
  | typeError (msg : String)
  | keyError (key : String)
  | attributeError (msg : String)
  | fileNotFoundError (path : String)
deriving DecidableEq

/-- Observable filesystem / IO events of the loader, in call order. -/
inductive Eff where
  | walkFS (base : String)
  | listDir (path : Option String)
  | openDataset (path : String)
  | openJson (path : String)
  | loadQuam (path : String)
  | printMsg (msg : String)
deriving DecidableEq

/-- The part of an opened dataset the loader reads: ds.qubit.values. -/
structure Dataset where
  qubitNames : List String
deriving DecidableEq

/-- The calibration-state object: its qubit registry. -/
structure Machine where
  qubits : List (String × Qubit)
deriving DecidableEq

/-- The metadata JSON.  Only its initial_parameters key is ever read; the
Option models presence of that key, and parameter values are opaque. -/
structure PyJson where
  initial_parameters : Option (List (String × Int))
deriving DecidableEq

/-- A caller-supplied parameters object, modelled as its attribute list;
iterating it yields (name, value) pairs as the source loop does. -/
abbrev Params := List (String × Int)

/-- The loader environment: the storage root resolved from settings, its
directory tree, the current working directory listing (CPython's
os.listdir falls back to it on None), and the external readers.  The
readers are total because no claim concerns their own failure, except the
calibration-state loader, whose failure the source catches. -/
structure LoadEnv where
  storagePath : String
  tree : DirTree
  cwdListing : List String
  datasets : String → Dataset
  jsonData : String → PyJson
  quam : String → Except String Machine

/-- Listing of a path among the walk entries of the storage tree: child
directory names then file names, as os.listdir returns both. -/
def lookupListing (entries : List WalkEntry) (path : String) : Option (List String) :=
  match entries with
  | [] => Option.none
  | e :: rest =>
    if e.root = path then some (e.dirs ++ e.files) else lookupListing rest path

/-- os.listdir: with None, CPython lists the current working directory
rather than raising; with a path, list it or raise FileNotFoundError. -/
def os_listdir (env : LoadEnv) : Option String → Except PyErr (List String)
  | Option.none => .ok env.cwdListing
  | some path =>
    match lookupListing (walk env.storagePath env.tree) path with
    | some listing => .ok listing
    | Option.none => .error (.fileNotFoundError path)

/-- Python file.split(".")[0]: the characters before the first dot. -/
def pySplitStem (f : String) : String :=
  String.mk (f.toList.takeWhile (fun c => c != '.'))

/-- Python str.endswith, modelled over character lists. -/
def strEndsWith (s tail : String) : Bool :=
  tail.toList.isSuffixOf s.toList

/-- Python f-string of an optional string: the string itself, or None. -/
def pyOptStr : Option String → String
  | some s => s
  | Option.none => "None"

/-- The qubit cross-reference comprehension of load_dataset:
machine.qubits[qname] for each dataset qubit name.  With an absent
machine the attribute access on None raises, and a missing registry name
raises a KeyError; an empty name list performs no access at all. -/
def crossRef (machine : Option Machine) : List String → Except PyErr (List Qubit)
  | [] => .ok []
  | qname :: rest =>
    match machine with
    | Option.none => .error (.attributeError "NoneType object has no attribute qubits")
    | some m =>
      match m.qubits.lookup qname with
      | some q => (crossRef machine rest).map (fun qs => q :: qs)
      | Option.none => .error (.keyError qname)

/-- Python setattr on the parameters object: update the attribute when
present, else add it. -/
def pySetattr (ps : Params) (name : String) (v : Int) : Params :=
  if ps.any (fun p => p.1 == name) then
    ps.map (fun p => if p.1 == name then (name, v) else p)
  else ps ++ [(name, v)]

/-- The parameter-overlay loop of load_dataset: for each (name, value)
pair of the parameters object except load_data_id, overwrite the
attribute with the stored value when the name occurs in the JSON's
initial_parameters; reading that JSON key raises a KeyError when the key
is absent. -/
def overlayLoop (json_data : PyJson) :
    List (String × Int) → Params → Except PyErr Params
  | [], acc => .ok acc
  | (param_name, _) :: rest, acc =>
    if param_name = "load_data_id" then
      overlayLoop json_data rest acc
    else
      match json_data.initial_parameters with
      | Option.none => .error (.keyError "initial_parameters")
      | some ips =>
        match ips.lookup param_name with
        | some v => overlayLoop json_data rest (pySetattr acc param_name v)
        | Option.none => overlayLoop json_data rest acc

/-- Result of the loader: the printed not-found None, or the returned
bundle, without and with the parameters object. -/
inductive LoadResult where
  | notFound
  | bundle4 (ds : Dataset) (machine : Option Machine) (json : PyJson)
      (qubits : List Qubit)
  | bundle5 (ds : Dataset) (machine : Option Machine) (json : PyJson)
      (qubits : List Qubit) (params : Params)
deriving DecidableEq

/-- The body of load_dataset after the serial-number type check: locate
the folder, list it (the CWD when the folder is absent), resolve the
target among the .h5 file names, and on the non-empty-listing branch join
paths, open the dataset and the metadata, best-effort-load the
calibration state, cross-reference qubits and optionally overlay the
parameters. -/
def load_dataset_body (env : LoadEnv) (serial_number : SerialArg)
    (target_filename : String) (parameters : Option Params) :
    Except PyErr LoadResult × List Eff :=
  let base_folder := find_numbered_folder env.storagePath env.tree serial_number
  let tr := [Eff.walkFS env.storagePath, Eff.listDir base_folder]
  match os_listdir env base_folder with
  | .error e => (.error e, tr)
  | .ok listing =>
    let nc_files := listing.filter (fun f => strEndsWith f ".h5")
    let is_present := (nc_files.map pySplitStem).contains target_filename
    let filename :=
      if is_present then
        (nc_files.filter (fun f => pySplitStem f == target_filename)).head?
      else Option.none
    if nc_files.isEmpty then
      (.ok .notFound,
        tr ++ [Eff.printMsg ("No .nc file found in folder: " ++ pyOptStr base_folder)])
    else
      match base_folder with
      | Option.none => (.error (.typeError "join arg 1 expected str not NoneType"), tr)
      | some b =>
        match filename with
        | Option.none =>
          (.error (.typeError "join arg 2 expected str not NoneType"), tr)
        | some f =>
          let file_path := b ++ "/" ++ f
          let json_path := b ++ "/" ++ "data.json"
          let quam_path := b ++ "//quam_state.json"
          let ds := env.datasets file_path
          let json_data := env.jsonData json_path
          let tr2 := tr ++ [Eff.openDataset file_path, Eff.openJson json_path,
            Eff.loadQuam quam_path]
          let machine : Option Machine :=
            match env.quam quam_path with
            | .ok m => some m
            | .error _ => Option.none
          let tr3 := tr2 ++
            (match env.quam quam_path with
             | .ok _ => []
             | .error emsg => [Eff.printMsg ("Error loading machine: " ++ emsg)])
          match crossRef machine ds.qubitNames with
          | .error e => (.error e, tr3)
          | .ok qubits =>
            match parameters with
            | some ps =>
              match overlayLoop json_data ps ps with
              | .error e => (.error e, tr3)
              | .ok ps2 => (.ok (.bundle5 ds machine json_data qubits ps2), tr3)
            | Option.none => (.ok (.bundle4 ds machine json_data qubits), tr3)

/-- Embedding of load_dataset(serial_number, target_filename, parameters)
from save_utils.py, paired with the ordered trace of filesystem / IO
events it performs. -/
def load_dataset (env : LoadEnv) (serial_number : SerialArg)
    (target_filename : String) (parameters : Option Params) :
    Except PyErr LoadResult × List Eff :=
  if isinstance_int serial_number then
    load_dataset_body env serial_number target_filename parameters
  else
    (.error (.valueError "serial_number must be an integer"), [])

/-- A storage tree with no folders at all. -/
def c1treeEmpty : DirTree := .node .nil []

/-- Environment where no folder matches and the working directory is
empty. -/
def c1envA : LoadEnv :=
  { storagePath := "root", tree := c1treeEmpty, cwdListing := [],
    datasets := fun _ => ⟨[]⟩, jsonData := fun _ => ⟨Option.none⟩,
    quam := fun _ => .error "no file" }

/-- Same environment, but the working directory happens to hold an .h5
file whose stem is not the target. -/
def c1envB : LoadEnv :=
  { c1envA with cwdListing := ["other.h5"] }

/-- C1 (evaluation at the failing input): when the Folder Locator returns
None, the loader does not guard the case: os.listdir(None) silently lists
the current working directory.  With a clean working directory the loader
happens to print not-found and return None, but with a stray .h5 file
there the loader proceeds and os.path.join(None, ...) raises a TypeError,
so not-found is not handled as a not-found condition. -/
theorem load_dataset_missing_folder_behavior :
    find_numbered_folder c1envA.storagePath c1envA.tree (.int 5) = Option.none ∧
    load_dataset c1envA (.int 5) "ds" Option.none
      = (.ok .notFound,
        [.walkFS "root", .listDir Option.none,
         .printMsg "No .nc file found in folder: None"]) ∧
    find_numbered_folder c1envB.storagePath c1envB.tree (.int 5) = Option.none ∧
    load_dataset c1envB (.int 5) "ds" Option.none
      = (.error (.typeError "join arg 1 expected str not NoneType"),
        [.walkFS "root", .listDir Option.none]) := by
  refine ⟨by decide, by decide, by decide, by decide⟩

/-- A storage tree whose tag-5 folder holds an .h5 file with stem other,
plus the metadata file. -/
def c3tree : DirTree :=
  .node (.cons "#5_x" (.node .nil ["other.h5", "data.json"]) .nil) []

/-- Environment for the C3 scenario. -/
def c3env : LoadEnv :=
  { storagePath := "root", tree := c3tree, cwdListing := [],
    datasets := fun _ => ⟨[]⟩, jsonData := fun _ => ⟨Option.none⟩,
    quam := fun _ => .error "no file" }

/-- C3 (evaluation at the failing input): the resolved folder holds an
.h5 file but none whose stem equals the target, so filename resolves to
None; the loader does not treat the dataset as absent — os.path.join on
the None filename raises a TypeError.  The trace shows no dataset-open
event, so the failure happens before any open. -/
theorem load_dataset_no_matching_stem_behavior :
    load_dataset c3env (.int 5) "ds" Option.none
      = (.error (.typeError "join arg 2 expected str not NoneType"),
        [.walkFS "root", .listDir (some "root/#5_x")]) := by
  decide

/-- A storage tree whose tag-5 folder holds the dataset, metadata and
state files. -/
def c9tree : DirTree :=
  .node (.cons "#5_x" (.node .nil ["ds.h5", "data.json", "quam_state.json"]) .nil) []

/-- Environment where the calibration-state load fails and the dataset
has an empty qubit coordinate. -/
def c9env : LoadEnv :=
  { storagePath := "root", tree := c9tree, cwdListing := [],
    datasets := fun _ => ⟨[]⟩, jsonData := fun _ => ⟨some []⟩,
    quam := fun _ => .error "boom" }

/-- C9 (counterexample): the calibration-state load fails and the machine
is absent, yet the loader returns a bundle rather than failing, because
the dataset's qubit coordinate is empty so the cross-reference
comprehension never touches the absent machine. -/
theorem crossref_after_quam_failure_counterexample :
    c9env.quam "root/#5_x//quam_state.json" = .error "boom" ∧
    load_dataset c9env (.int 5) "ds" Option.none
      = (.ok (.bundle4 ⟨[]⟩ Option.none ⟨some []⟩ []),
         [.walkFS "root", .listDir (some "root/#5_x"),
          .openDataset "root/#5_x/ds.h5", .openJson "root/#5_x/data.json",
          .loadQuam "root/#5_x//quam_state.json",
          .printMsg "Error loading machine: boom"]) := by
  refine ⟨by decide, by decide⟩

/-- C9 (amended): a calibration-state load failure is caught — the loader
prints it and continues with an absent machine — and, provided the
dataset carries at least one qubit name, the unguarded cross-reference
then fails with an AttributeError rather than returning a result; with no
qubit names the comprehension never touches the machine, so a bundle is
returned.  With a loaded machine the cross-reference errors exactly when
some dataset qubit name is missing from the registry. -/
theorem load_dataset_quam_failure_spec :
    (∀ (env : LoadEnv) (s : SerialArg) (t : String) (p : Option Params)
      (b f emsg q0 : String) (listing qs : List String),
      isinstance_int s = true →
      find_numbered_folder env.storagePath env.tree s = some b →
      os_listdir env (some b) = .ok listing →
      (listing.filter (fun fl => strEndsWith fl ".h5")).isEmpty = false →
      ((listing.filter (fun fl => strEndsWith fl ".h5")).map pySplitStem).contains t
        = true →
      ((listing.filter (fun fl => strEndsWith fl ".h5")).filter
          (fun fl => pySplitStem fl == t)).head? = some f →
      env.quam (b ++ "//quam_state.json") = .error emsg →
      (env.datasets (b ++ "/" ++ f)).qubitNames = q0 :: qs →
      ∃ tr, load_dataset env s t p
          = (.error (.attributeError "NoneType object has no attribute qubits"), tr)
        ∧ Eff.printMsg ("Error loading machine: " ++ emsg) ∈ tr) ∧
    (∀ (m : Machine) (names : List String),
      (∃ e, crossRef (some m) names = .error e) ↔
        ∃ n ∈ names, m.qubits.lookup n = Option.none) := by
  constructor
  · intro env s t p b f emsg q0 listing qs hs hfind hls hne hpres hhead hquam hqn
    refine ⟨([Eff.walkFS env.storagePath, Eff.listDir (some b)] ++
        [Eff.openDataset (b ++ "/" ++ f), Eff.openJson (b ++ "/" ++ "data.json"),
         Eff.loadQuam (b ++ "//quam_state.json")]) ++
        [Eff.printMsg ("Error loading machine: " ++ emsg)], ?_, by simp⟩
    simp only [load_dataset, hs, if_true, load_dataset_body, hfind, hls, hne,
      hpres, hhead, hquam, hqn, crossRef, Bool.false_eq_true, if_false]
  · intro m names
    induction names with
    | nil => simp [crossRef]
    | cons n rest ih =>
      constructor
      · rintro ⟨e, he⟩
        simp only [crossRef] at he
        cases hlk : m.qubits.lookup n with
        | none => exact ⟨n, by simp, hlk⟩
        | some q =>
          rw [hlk] at he
          cases hr : crossRef (some m) rest with
          | error e2 =>
            obtain ⟨n2, hn2, hnone⟩ := ih.mp ⟨e2, hr⟩
            exact ⟨n2, by simp [hn2], hnone⟩
          | ok qs =>
            rw [hr] at he
            simp [Except.map] at he
      · rintro ⟨n2, hn2, hnone⟩
        rcases List.mem_cons.mp hn2 with rfl | hmem
        · cases hlk : m.qubits.lookup n2 with
          | none => exact ⟨.keyError n2, by simp [crossRef, hlk]⟩
          | some q =>
            rw [hlk] at hnone
            exact Option.noConfusion hnone
        · cases hlk : m.qubits.lookup n with
          | none => exact ⟨.keyError n, by simp [crossRef, hlk]⟩
          | some q =>
            obtain ⟨e, he⟩ := ih.mpr ⟨n2, hmem, hnone⟩
            exact ⟨e, by simp [crossRef, hlk, he, Except.map]⟩

/-- Environment like c9env but whose dataset carries one qubit name. -/
def c9envB : LoadEnv :=
  { c9env with datasets := fun _ => ⟨["qA"]⟩ }

/-- Witness for the amended C9 theorem: with a failed state load and one
dataset qubit name, the loader fails with the unguarded AttributeError
after printing the caught state-load failure. -/
theorem load_dataset_quam_failure_spec_witness :
    ∃ tr, load_dataset c9envB (.int 5) "ds" Option.none
        = (.error (.attributeError "NoneType object has no attribute qubits"), tr)
      ∧ Eff.printMsg ("Error loading machine: " ++ "boom") ∈ tr :=
  load_dataset_quam_failure_spec.1 c9envB (.int 5) "ds" Option.none
    "root/#5_x" "ds.h5" "boom" "qA" ["ds.h5", "data.json", "quam_state.json"] []
    (by decide) (by decide) (by decide) (by decide) (by decide) (by decide)
    (by decide) (by decide)

lemma os_listdir_error {env : LoadEnv} {op : Option String} {e : PyErr}
    (h : os_listdir env op = .error e) : ∃ path, e = .fileNotFoundError path := by
  cases op with
  | none => simp [os_listdir] at h
  | some path =>
    simp only [os_listdir] at h
    cases hl : lookupListing (walk env.storagePath env.tree) path with
    | none =>
      rw [hl] at h
      simp at h
      exact ⟨path, h.symm⟩
    | some l =>
      rw [hl] at h
      simp at h

lemma crossRef_error_kind {machine : Option Machine} {names : List String}
    {e : PyErr} (h : crossRef machine names = .error e) :
    (∃ m, e = .attributeError m) ∨ (∃ k, e = .keyError k) := by
  induction names with
  | nil => simp [crossRef] at h
  | cons q rest ih =>
    cases machine with
    | none =>
      simp only [crossRef] at h
      simp at h
      exact Or.inl ⟨_, h.symm⟩
    | some m =>
      simp only [crossRef] at h
      cases hq : m.qubits.lookup q with
      | none =>
        rw [hq] at h
        simp at h
        exact Or.inr ⟨_, h.symm⟩
      | some qu =>
        rw [hq] at h
        cases hr : crossRef (some m) rest with
        | error e2 =>
          rw [hr] at h
          simp [Except.map] at h
          subst h
          exact ih hr
        | ok qs =>
          rw [hr] at h
          simp [Except.map] at h

lemma overlayLoop_error_kind {j : PyJson} {l : List (String × Int)}
    {acc : Params} {e : PyErr} (h : overlayLoop j l acc = .error e) :
    e = .keyError "initial_parameters" := by
  induction l generalizing acc with
  | nil => simp [overlayLoop] at h
  | cons p rest ih =>
    obtain ⟨name, v⟩ := p
    by_cases hn : name = "load_data_id"
    · rw [overlayLoop, if_pos hn] at h
      exact ih h
    · rw [overlayLoop, if_neg hn] at h
      split at h
      · simp at h
        exact h.symm
      · split at h
        · exact ih h
        · exact ih h

lemma load_dataset_body_no_valueError (env : LoadEnv) (s : SerialArg)
    (t : String) (p : Option Params) (msg : String) :
    (load_dataset_body env s t p).1 ≠ .error (.valueError msg) := by
  simp only [load_dataset_body]
  split
  · next e heq =>
    obtain ⟨pth, rfl⟩ := os_listdir_error heq
    simp
  · next listing heq =>
    split
    · simp
    · split
      · simp
      · next b =>
        split
        · simp
        · next f =>
          split
          · next e heq2 =>
            rcases crossRef_error_kind heq2 with ⟨m2, rfl⟩ | ⟨k, rfl⟩ <;> simp
          · next qubits heq2 =>
            split
            · next ps =>
              split
              · next e heq3 =>
                rw [overlayLoop_error_kind heq3]
                simp
              · simp
            · simp

lemma load_dataset_body_trace_head (env : LoadEnv) (s : SerialArg)
    (t : String) (p : Option Params) :
    (load_dataset_body env s t p).2.head? = some (.walkFS env.storagePath) := by
  simp only [load_dataset_body]
  split
  · simp
  · split
    · simp
    · split
      · simp
      · split
        · simp
        · split
          · simp
          · split
            · split <;> simp
            · simp

/-- C8: a non-integer serial number raises the invalid-argument
ValueError immediately, with an empty trace, so before any filesystem
access; for an integer serial number that ValueError is never raised. -/
theorem load_dataset_serial_check_spec :
    (∀ (env : LoadEnv) (t : String) (p : Option Params) (s : SerialArg),
      isinstance_int s = false →
      load_dataset env s t p
        = (.error (.valueError "serial_number must be an integer"), [])) ∧
    (∀ (env : LoadEnv) (t : String) (p : Option Params) (n : Int) (msg : String),
      (load_dataset env (.int n) t p).1 ≠ .error (.valueError msg)) := by
  constructor
  · intro env t p s hs
    simp [load_dataset, hs]
  · intro env t p n msg
    have hi : isinstance_int (.int n) = true := rfl
    simp only [load_dataset, hi, if_true]
    exact load_dataset_body_no_valueError env _ t p msg

/-- Witness for the C8 theorem: a string serial number is rejected with
the invalid-argument error and an empty trace. -/
theorem load_dataset_serial_check_spec_witness :
    load_dataset c1envA (.str "twelve") "ds" Option.none
      = (.error (.valueError "serial_number must be an integer"), []) :=
  load_dataset_serial_check_spec.1 c1envA "ds" Option.none (.str "twelve") rfl

/-- C10: booleans pass the isinstance int precondition because bool is a
subclass of int in Python, so no invalid-argument error is raised; the
loader runs its post-check body with the boolean as the experiment
number, whose first event is the folder search walk, and the boolean is
formatted into the search tag as True / False. -/
theorem load_dataset_bool_serial_spec :
    (∀ b, isinstance_int (.bool b) = true) ∧
    (∀ (env : LoadEnv) (t : String) (p : Option Params) (b : Bool),
      load_dataset env (.bool b) t p = load_dataset_body env (.bool b) t p) ∧
    (∀ (env : LoadEnv) (t : String) (p : Option Params) (b : Bool) (msg : String),
      (load_dataset env (.bool b) t p).1 ≠ .error (.valueError msg)) ∧
    (∀ (env : LoadEnv) (t : String) (p : Option Params) (b : Bool),
      (load_dataset env (.bool b) t p).2.head?
        = some (.walkFS env.storagePath)) ∧
    searchTag (.bool true) = "#True_" ∧ searchTag (.bool false) = "#False_" := by
  refine ⟨fun b => by cases b <;> rfl, ?_, ?_, ?_, by decide, by decide⟩
  · intro env t p b
    have hi : isinstance_int (.bool b) = true := by cases b <;> rfl
    simp [load_dataset, hi]
  · intro env t p b msg
    have hi : isinstance_int (.bool b) = true := by cases b <;> rfl
    simp only [load_dataset, hi, if_true]
    exact load_dataset_body_no_valueError env _ t p msg
  · intro env t p b
    have hi : isinstance_int (.bool b) = true := by cases b <;> rfl
    simp only [load_dataset, hi, if_true]
    exact load_dataset_body_trace_head env _ t p

lemma lookup_cons_self {k : String} {w : Int} {rest : List (String × Int)} :
    List.lookup k ((k, w) :: rest) = some w := by
  simp [List.lookup]

lemma lookup_cons_ne {a k : String} {w : Int} {rest : List (String × Int)}
    (h : a ≠ k) : List.lookup a ((k, w) :: rest) = List.lookup a rest := by
  have hb : (a == k) = false := beq_eq_false_iff_ne.mpr h
  simp [List.lookup, hb]

lemma lookup_map_update (ps : Params) (name : String) (v : Int)
    (h : ps.any (fun p => p.1 == name) = true) :
    (ps.map (fun p => if p.1 == name then (name, v) else p)).lookup name
      = some v := by
  induction ps with
  | nil => simp at h
  | cons p rest ih =>
    obtain ⟨k, w⟩ := p
    by_cases hk : k = name
    · simp only [List.map_cons]
      rw [if_pos (by simpa using hk)]
      exact lookup_cons_self
    · simp only [List.map_cons]
      rw [if_neg (by simpa using hk), lookup_cons_ne (fun hc => hk hc.symm)]
      simp only [List.any_cons, Bool.or_eq_true] at h
      rcases h with h | h
      · simp at h
        exact absurd h hk
      · exact ih h

lemma lookup_append_single (ps : Params) (name : String) (v : Int)
    (h : ∀ p ∈ ps, ¬ p.1 = name) :
    (ps ++ [(name, v)]).lookup name = some v := by
  induction ps with
  | nil => exact lookup_cons_self
  | cons p rest ih =>
    obtain ⟨k, w⟩ := p
    have hk : ¬ k = name := h (k, w) (by simp)
    rw [List.cons_append, lookup_cons_ne (fun hc => hk hc.symm)]
    exact ih (fun p hp => h p (List.mem_cons_of_mem _ hp))

lemma pySetattr_lookup_self (ps : Params) (name : String) (v : Int) :
    (pySetattr ps name v).lookup name = some v := by
  rw [pySetattr]
  split
  · next h => exact lookup_map_update ps name v h
  · next h =>
    refine lookup_append_single ps name v ?_
    intro p hp hc
    exact h (List.any_eq_true.mpr ⟨p, hp, by simp [hc]⟩)

lemma lookup_map_update_other (ps : Params) (name other : String) (v : Int)
    (hne : other ≠ name) :
    (ps.map (fun p => if p.1 == name then (name, v) else p)).lookup other
      = ps.lookup other := by
  induction ps with
  | nil => simp
  | cons p rest ih =>
    obtain ⟨k, w⟩ := p
    by_cases hk : k = name
    · subst hk
      simp only [List.map_cons]
      rw [if_pos (by simp), lookup_cons_ne hne, lookup_cons_ne hne]
      exact ih
    · simp only [List.map_cons]
      rw [if_neg (by simpa using hk)]
      by_cases ho : other = k
      · subst ho
        rw [lookup_cons_self, lookup_cons_self]
      · rw [lookup_cons_ne ho, lookup_cons_ne ho]
        exact ih

lemma lookup_append_single_other (ps : Params) (name other : String) (v : Int)
    (hne : other ≠ name) :
    (ps ++ [(name, v)]).lookup other = ps.lookup other := by
  induction ps with
  | nil =>
    rw [List.nil_append, lookup_cons_ne hne]
  | cons p rest ih =>
    obtain ⟨k, w⟩ := p
    by_cases ho : other = k
    · subst ho
      rw [List.cons_append, lookup_cons_self, lookup_cons_self]
    · rw [List.cons_append, lookup_cons_ne ho, lookup_cons_ne ho]
      exact ih

lemma pySetattr_lookup_other (ps : Params) (name other : String) (v : Int)
    (hne : other ≠ name) :
    (pySetattr ps name v).lookup other = ps.lookup other := by
  rw [pySetattr]
  split
  · exact lookup_map_update_other ps name other v hne
  · exact lookup_append_single_other ps name other v hne

lemma overlayLoop_lookup_ldi {j : PyJson} {l : List (String × Int)}
    {acc res : Params} (hok : overlayLoop j l acc = .ok res) :
    res.lookup "load_data_id" = acc.lookup "load_data_id" := by
  induction l generalizing acc with
  | nil =>
    simp only [overlayLoop, Except.ok.injEq] at hok
    rw [hok]
  | cons p rest ih =>
    obtain ⟨name, v⟩ := p
    by_cases hn : name = "load_data_id"
    · rw [overlayLoop, if_pos hn] at hok
      exact ih hok
    · rw [overlayLoop, if_neg hn] at hok
      split at hok
      · exact absurd hok (by simp)
      · split at hok
        · rw [ih hok, pySetattr_lookup_other _ _ _ _ (fun hc => hn hc.symm)]
        · exact ih hok

lemma overlayLoop_lookup_not_mem {j : PyJson} {l : List (String × Int)}
    {acc res : Params} {n : String} (hnm : n ∉ l.map Prod.fst)
    (hok : overlayLoop j l acc = .ok res) :
    res.lookup n = acc.lookup n := by
  induction l generalizing acc with
  | nil =>
    simp only [overlayLoop, Except.ok.injEq] at hok
    rw [hok]
  | cons p rest ih =>
    obtain ⟨name, v⟩ := p
    simp only [List.map_cons, List.mem_cons, not_or] at hnm
    obtain ⟨hne, hnm2⟩ := hnm
    by_cases hn : name = "load_data_id"
    · rw [overlayLoop, if_pos hn] at hok
      exact ih hnm2 hok
    · rw [overlayLoop, if_neg hn] at hok
      split at hok
      · exact absurd hok (by simp)
      · split at hok
        · rw [ih hnm2 hok, pySetattr_lookup_other _ _ _ _ hne]
        · exact ih hnm2 hok

lemma overlayLoop_lookup_no_store {j : PyJson} {l : List (String × Int)}
    {acc res : Params} {n : String} {ips : List (String × Int)}
    (hip : j.initial_parameters = some ips) (hlk : ips.lookup n = Option.none)
    (hok : overlayLoop j l acc = .ok res) :
    res.lookup n = acc.lookup n := by
  induction l generalizing acc with
  | nil =>
    simp only [overlayLoop, Except.ok.injEq] at hok
    rw [hok]
  | cons p rest ih =>
    obtain ⟨name, v⟩ := p
    by_cases hn : name = "load_data_id"
    · rw [overlayLoop, if_pos hn] at hok
      exact ih hok
    · rw [overlayLoop, if_neg hn] at hok
      split at hok
      · exact absurd hok (by simp)
      · next ips2 hip2 =>
        rw [hip] at hip2
        simp only [Option.some.injEq] at hip2
        subst hip2
        split at hok
        · next w hw =>
          have hne : n ≠ name := by
            intro hc
            rw [← hc, hlk] at hw
            exact Option.noConfusion hw
          rw [ih hok, pySetattr_lookup_other _ _ _ _ hne]
        · exact ih hok

lemma overlayLoop_lookup_hit {j : PyJson} {l : List (String × Int)}
    {acc res : Params} {n : String} {ips : List (String × Int)} {v : Int}
    (hip : j.initial_parameters = some ips) (hlk : ips.lookup n = some v)
    (hn : n ≠ "load_data_id") (hmem : n ∈ l.map Prod.fst)
    (hok : overlayLoop j l acc = .ok res) :
    res.lookup n = some v := by
  induction l generalizing acc with
  | nil => simp at hmem
  | cons p rest ih =>
    obtain ⟨name, w⟩ := p
    simp only [List.map_cons, List.mem_cons] at hmem
    by_cases hldi : name = "load_data_id"
    · rw [overlayLoop, if_pos hldi] at hok
      rcases hmem with rfl | hmem2
      · exact absurd hldi hn
      · exact ih hmem2 hok
    · rw [overlayLoop, if_neg hldi] at hok
      split at hok
      · exact absurd hok (by simp)
      · next ips2 hip2 =>
        rw [hip] at hip2
        simp only [Option.some.injEq] at hip2
        subst hip2
        split at hok
        · next w2 hw2 =>
          by_cases hm2 : n ∈ rest.map Prod.fst
          · exact ih hm2 hok
          · have hne : n = name := by
              rcases hmem with rfl | hmem2
              · rfl
              · exact absurd hmem2 hm2
            subst hne
            rw [hlk] at hw2
            cases hw2
            rw [overlayLoop_lookup_not_mem hm2 hok, pySetattr_lookup_self]
        · next hw2 =>
          rcases hmem with rfl | hmem2
          · rw [hlk] at hw2
            exact Option.noConfusion hw2
          · exact ih hmem2 hok

lemma load_dataset_body_bundle5_inv {env : LoadEnv} {s : SerialArg}
    {t : String} {ps : Params} {ds : Dataset} {m : Option Machine}
    {j : PyJson} {q : List Qubit} {ps2 : Params} {tr : List Eff}
    (h : load_dataset_body env s t (some ps) = (.ok (.bundle5 ds m j q ps2), tr)) :
    overlayLoop j ps ps = .ok ps2 := by
  simp only [load_dataset_body] at h
  split at h
  · simp at h
  · split at h
    · simp at h
    · split at h
      · simp at h
      · split at h
        · simp at h
        · split at h
          · simp at h
          · split at h
            · simp at h
            · next ps2' hov =>
              simp only [Prod.mk.injEq, Except.ok.injEq,
                LoadResult.bundle5.injEq] at h
              obtain ⟨⟨hds, hm, hj, hq, hps⟩, htr⟩ := h
              rw [← hj, ← hps]
              exact hov

lemma load_dataset_body_no_bundle4 (env : LoadEnv) (s : SerialArg)
    (t : String) (ps : Params) (ds : Dataset) (m : Option Machine)
    (j : PyJson) (q : List Qubit) (tr : List Eff) :
    load_dataset_body env s t (some ps) ≠ (.ok (.bundle4 ds m j q), tr) := by
  intro h
  simp only [load_dataset_body] at h
  split at h
  · simp at h
  · split at h
    · simp at h
    · split at h
      · simp at h
      · split at h
        · simp at h
        · split at h
          · simp at h
          · split at h
            · simp at h
            · simp at h

/-- C7: whenever the loader is given a parameters object and returns a
bundle, the bundle is the 5-tuple with the parameters object, never the
4-tuple; the returned parameters never have load_data_id overwritten; an
attribute whose name occurs in the metadata JSON's initial_parameters is
overwritten with the stored value; and every other attribute — absent
from the parameters object, or absent from initial_parameters — is left
unchanged. -/
theorem load_dataset_parameters_spec :
    (∀ (env : LoadEnv) (s : SerialArg) (t : String) (ps : Params)
      (ds : Dataset) (m : Option Machine) (j : PyJson) (q : List Qubit)
      (tr : List Eff),
      load_dataset env s t (some ps) ≠ (.ok (.bundle4 ds m j q), tr)) ∧
    (∀ (env : LoadEnv) (s : SerialArg) (t : String) (ps : Params)
      (ds : Dataset) (m : Option Machine) (j : PyJson) (q : List Qubit)
      (ps2 : Params) (tr : List Eff),
      load_dataset env s t (some ps) = (.ok (.bundle5 ds m j q ps2), tr) →
      ps2.lookup "load_data_id" = ps.lookup "load_data_id" ∧
      (∀ (n : String) (ips : List (String × Int)) (v : Int),
        n ≠ "load_data_id" → n ∈ ps.map Prod.fst →
        j.initial_parameters = some ips → ips.lookup n = some v →
        ps2.lookup n = some v) ∧
      (∀ n : String, n ∉ ps.map Prod.fst → ps2.lookup n = ps.lookup n) ∧
      (∀ (n : String) (ips : List (String × Int)),
        j.initial_parameters = some ips → ips.lookup n = Option.none →
        ps2.lookup n = ps.lookup n)) := by
  constructor
  · intro env s t ps ds m j q tr h
    rw [load_dataset] at h
    split at h
    · exact load_dataset_body_no_bundle4 env s t ps ds m j q tr h
    · simp at h
  · intro env s t ps ds m j q ps2 tr h
    have hov : overlayLoop j ps ps = .ok ps2 := by
      rw [load_dataset] at h
      split at h
      · exact load_dataset_body_bundle5_inv h
      · simp at h
    refine ⟨overlayLoop_lookup_ldi hov, ?_, ?_, ?_⟩
    · intro n ips v hn hmem hip hlk
      exact overlayLoop_lookup_hit hip hlk hn hmem hov
    · intro n hnm
      exact overlayLoop_lookup_not_mem hnm hov
    · intro n ips hip hlk
      exact overlayLoop_lookup_no_store hip hlk hov

/-- Metadata JSON of the C7 witness scenario. -/
def c7json : PyJson := ⟨some [("amplitude", 5), ("load_data_id", 9)]⟩

/-- Calibration state of the C7 witness scenario. -/
def c7machine : Machine := ⟨[("qA", ⟨"qA"⟩)]⟩

/-- Fully successful loader environment for the C7 witness. -/
def c7env : LoadEnv :=
  { storagePath := "root", tree := c9tree, cwdListing := [],
    datasets := fun _ => ⟨["qA"]⟩, jsonData := fun _ => c7json,
    quam := fun _ => .ok c7machine }

/-- Caller-supplied parameters of the C7 witness. -/
def c7params : Params := [("load_data_id", 7), ("amplitude", 1), ("other", 3)]

/-- Parameters returned by the loader in the C7 witness. -/
def c7out : Params := [("load_data_id", 7), ("amplitude", 5), ("other", 3)]

/-- Witness for the C7 theorem: on a successful run the loader returns
the 5-tuple; amplitude is overwritten with the stored 5, while
load_data_id (also present in the stored parameters) and the unstored
attribute keep their caller-supplied values. -/
theorem load_dataset_parameters_spec_witness :
    load_dataset c7env (.int 5) "ds" (some c7params)
        = (.ok (.bundle5 ⟨["qA"]⟩ (some c7machine) c7json [⟨"qA"⟩] c7out),
           [.walkFS "root", .listDir (some "root/#5_x"),
            .openDataset "root/#5_x/ds.h5", .openJson "root/#5_x/data.json",
            .loadQuam "root/#5_x//quam_state.json"]) ∧
    c7out.lookup "amplitude" = some 5 ∧
    c7out.lookup "load_data_id" = c7params.lookup "load_data_id" ∧
    c7out.lookup "other" = c7params.lookup "other" := by
  have hload : load_dataset c7env (.int 5) "ds" (some c7params)
      = (.ok (.bundle5 ⟨["qA"]⟩ (some c7machine) c7json [⟨"qA"⟩] c7out),
         [.walkFS "root", .listDir (some "root/#5_x"),
          .openDataset "root/#5_x/ds.h5", .openJson "root/#5_x/data.json",
          .loadQuam "root/#5_x//quam_state.json"]) := by decide
  have h := load_dataset_parameters_spec.2 c7env (.int 5) "ds" c7params
    ⟨["qA"]⟩ (some c7machine) c7json [⟨"qA"⟩] c7out _ hload
  refine ⟨hload, ?_, h.1, ?_⟩
  · exact h.2.1 "amplitude" [("amplitude", 5), ("load_data_id", 9)] 5
      (by decide) (by decide) rfl (by decide)
  · exact h.2.2.2 "other" [("amplitude", 5), ("load_data_id", 9)] rfl (by decide)

end SaveUtils
